import Mathlib

/-!
# GildraControlPlaneExample: certificate issuance and the REST handlers

A shallow embedding of `http_server/cert_cert.go` and of the handlers of
`http_server/http_server.go`.

* The external ACME library (`acme_http`) is an abstract client: a record of
  functions from the arguments of a call to its outcome.
* The file system is an explicit map from path to bytes, together with an
  environment `Host` that decides which `os.WriteFile` calls fail and how. Two
  spellings of a path that clean to the same path name the same file.
* The body of a JSON answer is the value handed to `c.JSON` with every string as a
  JSON decoder reads it back.
* Every external call and every file write a routine performs is recorded, in
  order, in a ghost trace, with the file system as it was when the call was made.
-/

set_option autoImplicit false

namespace GildraControlPlane

/-! ## Data model -/

/-- A Go `[]byte`, and the bytes of a Go `string` that carries a payload. The
conversions `[]byte(s)` and `string(b)` keep the bytes, so both are the identity
on this type. -/
abbrev Bytes := List (Fin 256)

/-- A Go `error` value, as far as this package builds and inspects them. -/
inductive GoError where
  /-- an error value handed back by an external collaborator (ACME library, OS, binder) -/
  | ext (msg : String)
  /-- the value of `fmt.Errorf(pre + "%w", inner)` -/
  | wrapped (pre : String) (inner : GoError)
  /-- the value of `echo.NewHTTPError(code, message)` -/
  | http (code : Nat) (message : String)
  deriving DecidableEq, Repr

/-- The method `Error()` of an error value. -/
def GoError.Error : GoError → String
  | .ext msg => msg
  | .wrapped pre inner => pre ++ inner.Error
  | .http code message => "code=" ++ Nat.repr code ++ ", message=" ++ message

/-- The error a `%w` verb wrapped, if any (`errors.Unwrap`). -/
def GoError.Unwrap : GoError → Option GoError
  | .wrapped _ inner => some inner
  | _ => none

deriving instance DecidableEq for Except

/-! ### Values of the external ACME library

Only the fields this repository reads are named; the rest of each record is
carried along in `raw`. -/

structure CADir where
  raw : String
  deriving DecidableEq, Repr

structure AccountKey where
  raw : String
  deriving DecidableEq, Repr

structure Order where
  raw : String
  deriving DecidableEq, Repr

structure Authorization where
  raw : String
  deriving DecidableEq, Repr

structure Challenge where
  Token : String
  Key : Bytes
  raw : String
  deriving DecidableEq, Repr

structure ChallengeResponse where
  raw : String
  deriving DecidableEq, Repr

structure Resource where
  Certificate : Bytes
  PrivateKey : Bytes
  raw : String
  deriving DecidableEq, Repr

structure EABOptions where
  KID : String
  HMACKey : String
  deriving DecidableEq, Repr

/-- The functions of package `acme_http` that the issuance routines call. Durations
are in seconds. A context argument is not modelled, except for the deadline of
`PollAuthorizationCompleted`, passed as its first argument. -/
structure ACMEClient where
  GetCADir : String → Except GoError CADir
  CreateAccount : String → CADir → Option EABOptions → Except GoError (String × AccountKey)
  CreateOrder : String → String → CADir → AccountKey → Except GoError (String × Order)
  GetAuthorization : String → AccountKey → CADir → Order → Except GoError Authorization
  CreateChallenge : Authorization → AccountKey → Except GoError Challenge
  NotifyChallenge : CADir → String → AccountKey → Challenge → Except GoError ChallengeResponse
  PollAuthorizationCompleted : Nat → Nat → Order → String → AccountKey → CADir → Option GoError
  FinalizeOrder : String → String → String → AccountKey → CADir → Nat → Order →
    Except GoError Resource
  GetCert : Resource → String → AccountKey → CADir → Except GoError Resource

/-! ### File system and host environment -/

/-! A path that does not start with a slash is relative to the working directory of
the process, and paths are resolved lexically, as Go `path.Clean` does: in the
working directory "/srv", the paths "./challenges/x", "challenges//x" and
"/srv/challenges/x" name one file. Links between files are not modelled. -/

/-- The elements of a path: the runs of characters between its slashes. -/
def splitSlash : List Char → List (List Char)
  | [] => [[]]
  | c :: cs =>
    if c = '/' then [] :: splitSlash cs
    else
      match splitSlash cs with
      | [] => [[c]]
      | x :: xs => (c :: x) :: xs

/-- One element of a path met while cleaning it; `stack` holds the elements kept so
far, the last one first. -/
def cleanStep (rooted : Bool) (stack : List (List Char)) (elem : List Char) :
    List (List Char) :=
  if elem = [] ∨ elem = ['.'] then stack
  else if elem = ['.', '.'] then
    match stack with
    | [] => if rooted then [] else [elem]
    | top :: rest => if top = ['.', '.'] then elem :: stack else rest
  else elem :: stack

/-- The elements joined by single slashes. -/
def joinSlash : List (List Char) → List Char
  | [] => []
  | [x] => x
  | x :: y :: rest => x ++ '/' :: joinSlash (y :: rest)

/-- Go `path.Clean`: the shortest path that names the same file by purely lexical
processing. Empty elements and "." are dropped, ".." removes the element before it,
the empty result is ".". -/
def cleanPath (p : String) : String :=
  let rooted := p.data.head? == some '/'
  let kept := ((splitSlash p.data).foldl (cleanStep rooted) []).reverse
  if kept = [] then (if rooted then "/" else ".")
  else String.mk ((if rooted then ['/'] else []) ++ joinSlash kept)

/-- Go `path.Join` on two elements: the non-empty ones joined by a slash, cleaned. -/
def goPathJoin (a b : String) : String :=
  if a = "" then (if b = "" then "" else cleanPath b)
  else if b = "" then cleanPath a
  else cleanPath (a ++ "/" ++ b)

/-- The file system, keyed by the absolute cleaned path of a file (`Host.fileOf`):
the first pair with the key of a file holds its content; a file with no pair cannot
be read. -/
abbrev FS := List (String × Bytes)

/-- How an `os.WriteFile` call fails: with `written = none` the file could not be
opened and is left as it was; with `written = some n` it was truncated and the
first `n` bytes of the data reached it. -/
structure WriteFault where
  err : GoError
  written : Option Nat
  deriving DecidableEq, Repr

/-- What the process sees of its host: the standard-library function `path.Join`
on two elements, the working directory, the environment variables, which writes
fail, and the error reported for a path that cannot be read. -/
structure Host where
  pathJoin : String → String → String
  cwd : String
  Getenv : String → String
  writeFault : String → Bytes → Option WriteFault
  readErr : String → GoError

/-- The file a path names: the path itself when it starts with a slash, the path
under the working directory otherwise, cleaned. -/
def Host.fileOf (h : Host) (name : String) : String :=
  cleanPath (if name.data.head? == some '/' then name else h.cwd ++ "/" ++ name)

/-- Go `os.ReadFile`. -/
def ReadFile (h : Host) (fs : FS) (name : String) : Except GoError Bytes :=
  match fs.lookup (h.fileOf name) with
  | some b => .ok b
  | none => .error (h.readErr name)

/-- Go `os.WriteFile`: the error returned, and the file system afterwards. -/
def WriteFile (h : Host) (fs : FS) (name : String) (data : Bytes) : Option GoError × FS :=
  match h.writeFault name data with
  | none => (none, (h.fileOf name, data) :: fs)
  | some ⟨err, none⟩ => (some err, fs)
  | some ⟨err, some n⟩ => (some err, (h.fileOf name, data.take n) :: fs)

/-! ### Ghost trace -/

/-- One observed call: its arguments and its outcome. -/
inductive Event where
  | GetCADir (url : String) (out : Except GoError CADir)
  | CreateAccount (email : String) (caDir : CADir) (eab : Option EABOptions)
      (out : Except GoError (String × AccountKey))
  | CreateOrder (acctKid domain : String) (caDir : CADir) (pk : AccountKey)
      (out : Except GoError (String × Order))
  | GetAuthorization (acctKid : String) (pk : AccountKey) (caDir : CADir) (order : Order)
      (out : Except GoError Authorization)
  | CreateChallenge (auth : Authorization) (pk : AccountKey) (out : Except GoError Challenge)
  | WriteFile (name : String) (data : Bytes) (perm : Nat) (out : Option GoError)
  | NotifyChallenge (caDir : CADir) (acctKid : String) (pk : AccountKey) (challenge : Challenge)
      (out : Except GoError ChallengeResponse)
  | PollAuthorizationCompleted (deadline interval : Nat) (order : Order) (acctKid : String)
      (pk : AccountKey) (caDir : CADir) (out : Option GoError)
  | FinalizeOrder (acctKid domain orderLocation : String) (pk : AccountKey) (caDir : CADir)
      (interval : Nat) (order : Order) (out : Except GoError Resource)
  | GetCert (resource : Resource) (acctKid : String) (pk : AccountKey) (caDir : CADir)
      (out : Except GoError Resource)
  | ReadFile (name : String) (out : Except GoError Bytes)
  deriving DecidableEq, Repr

/-- The function an event is a call of. -/
inductive Op where
  | GetCADir | CreateAccount | CreateOrder | GetAuthorization | CreateChallenge | WriteFile
  | NotifyChallenge | PollAuthorizationCompleted | FinalizeOrder | GetCert | ReadFile
  deriving DecidableEq, Repr

def Event.op : Event → Op
  | .GetCADir .. => .GetCADir
  | .CreateAccount .. => .CreateAccount
  | .CreateOrder .. => .CreateOrder
  | .GetAuthorization .. => .GetAuthorization
  | .CreateChallenge .. => .CreateChallenge
  | .WriteFile .. => .WriteFile
  | .NotifyChallenge .. => .NotifyChallenge
  | .PollAuthorizationCompleted .. => .PollAuthorizationCompleted
  | .FinalizeOrder .. => .FinalizeOrder
  | .GetCert .. => .GetCert
  | .ReadFile .. => .ReadFile

/-- The error of an `Except` outcome. -/
def errOf {α : Type} : Except GoError α → Option GoError
  | .error e => some e
  | .ok _ => none

/-- The error an observed call returned, `none` when it succeeded. -/
def Event.err : Event → Option GoError
  | .GetCADir _ out => errOf out
  | .CreateAccount _ _ _ out => errOf out
  | .CreateOrder _ _ _ _ out => errOf out
  | .GetAuthorization _ _ _ _ out => errOf out
  | .CreateChallenge _ _ out => errOf out
  | .WriteFile _ _ _ out => out
  | .NotifyChallenge _ _ _ _ out => errOf out
  | .PollAuthorizationCompleted _ _ _ _ _ _ out => out
  | .FinalizeOrder _ _ _ _ _ _ _ out => errOf out
  | .GetCert _ _ _ _ out => errOf out
  | .ReadFile _ out => errOf out

/-- A trace entry: the file system when the call was made, and the call. -/
structure Logged where
  pre : FS
  ev : Event
  deriving DecidableEq, Repr

/-- The state a routine runs in: the file system and the calls made so far. -/
structure Sys where
  fs : FS
  trace : List Logged
  deriving DecidableEq, Repr

/-- Record a call that leaves the file system alone. -/
def Sys.log (s : Sys) (ev : Event) : Sys :=
  { s with trace := s.trace ++ [⟨s.fs, ev⟩] }

/-- Perform and record an `os.WriteFile` call. -/
def Sys.write (h : Host) (s : Sys) (name : String) (data : Bytes) (perm : Nat) :
    Option GoError × Sys :=
  let r := WriteFile h s.fs name data
  (r.1, { fs := r.2, trace := s.trace ++ [⟨s.fs, .WriteFile name data perm r.1⟩] })

/-- Perform and record an `os.ReadFile` call. -/
def Sys.read (h : Host) (s : Sys) (name : String) : Except GoError Bytes × Sys :=
  let r := ReadFile h s.fs name
  (r, s.log (.ReadFile name r))

/-! ## `cert_cert.go` -/

/-- Source `createLEStagingCert` (cert_cert.go, lines 13-93): the error returned
(`none` is Go `nil`) and the state afterwards. The `log` calls are left out. -/
def createLEStagingCert (cl : ACMEClient) (h : Host) (domain : String) (s : Sys) :
    Option GoError × Sys :=
  let r := cl.GetCADir "https://acme-staging-v02.api.letsencrypt.org/directory"
  let s := s.log (.GetCADir "https://acme-staging-v02.api.letsencrypt.org/directory" r)
  match r with
  | .error err => (some (.wrapped "error in GetCADir: " err), s)
  | .ok caDir =>
  let r := cl.CreateAccount "deftesting@icloud.com" caDir none
  let s := s.log (.CreateAccount "deftesting@icloud.com" caDir none r)
  match r with
  | .error err => (some (.wrapped "error in CreateAccount: " err), s)
  | .ok (acctKid, pk) =>
  let r := cl.CreateOrder acctKid domain caDir pk
  let s := s.log (.CreateOrder acctKid domain caDir pk r)
  match r with
  | .error err => (some (.wrapped "error in CreateOrder: " err), s)
  | .ok (orderLocation, order) =>
  let r := cl.GetAuthorization acctKid pk caDir order
  let s := s.log (.GetAuthorization acctKid pk caDir order r)
  match r with
  | .error err => (some (.wrapped "error in GetAuthorization: " err), s)
  | .ok auth =>
  let r := cl.CreateChallenge auth pk
  let s := s.log (.CreateChallenge auth pk r)
  match r with
  | .error err => (some (.wrapped "error in CreateChallenge: " err), s)
  | .ok challenge =>
  let w := s.write h (h.pathJoin "challenges" challenge.Token) challenge.Key 0o777
  let s := w.2
  match w.1 with
  | some err => (some (.wrapped "error in writing token file: " err), s)
  | none =>
  let r := cl.NotifyChallenge caDir acctKid pk challenge
  let s := s.log (.NotifyChallenge caDir acctKid pk challenge r)
  match r with
  | .error err => (some (.wrapped "error in NotifyChallenge: " err), s)
  | .ok _chal =>
  let e := cl.PollAuthorizationCompleted 60 2 order acctKid pk caDir
  let s := s.log (.PollAuthorizationCompleted 60 2 order acctKid pk caDir e)
  match e with
  | some err => (some (.wrapped "error in PollAuthorizationCompleted: " err), s)
  | none =>
  let r := cl.FinalizeOrder acctKid domain orderLocation pk caDir 2 order
  let s := s.log (.FinalizeOrder acctKid domain orderLocation pk caDir 2 order r)
  match r with
  | .error err => (some (.wrapped "error in FinalizeOrder: " err), s)
  | .ok resource =>
  let r := cl.GetCert resource acctKid pk caDir
  let s := s.log (.GetCert resource acctKid pk caDir r)
  match r with
  | .error err => (some (.wrapped "error in GetCert: " err), s)
  | .ok resource =>
  let w := s.write h (domain ++ ".cert") resource.Certificate 0o777
  let s := w.2
  match w.1 with
  | some err => (some (.wrapped "error in writing cert: " err), s)
  | none =>
  let w := s.write h (domain ++ ".key") resource.PrivateKey 0o777
  let s := w.2
  match w.1 with
  | some err => (some (.wrapped "error in writing key: " err), s)
  | none => (none, s)

/-- Source `createZeroSSLCert` (cert_cert.go, lines 95-178). -/
def createZeroSSLCert (cl : ACMEClient) (h : Host) (domain : String) (s : Sys) :
    Option GoError × Sys :=
  let r := cl.GetCADir "https://acme.zerossl.com/v2/DV90/directory"
  let s := s.log (.GetCADir "https://acme.zerossl.com/v2/DV90/directory" r)
  match r with
  | .error err => (some (.wrapped "error in GetCADir: " err), s)
  | .ok caDir =>
  let r := cl.CreateAccount "deftesting@icloud.com" caDir (some ⟨h.Getenv "ZEROSSL_KID", h.Getenv "ZEROSSL_HMAC"⟩)
  let s := s.log (.CreateAccount "deftesting@icloud.com" caDir (some ⟨h.Getenv "ZEROSSL_KID", h.Getenv "ZEROSSL_HMAC"⟩) r)
  match r with
  | .error err => (some (.wrapped "error in CreateAccount: " err), s)
  | .ok (acctKid, pk) =>
  let r := cl.CreateOrder acctKid domain caDir pk
  let s := s.log (.CreateOrder acctKid domain caDir pk r)
  match r with
  | .error err => (some (.wrapped "error in CreateOrder: " err), s)
  | .ok (orderLocation, order) =>
  let r := cl.GetAuthorization acctKid pk caDir order
  let s := s.log (.GetAuthorization acctKid pk caDir order r)
  match r with
  | .error err => (some (.wrapped "error in GetAuthorization: " err), s)
  | .ok auth =>
  let r := cl.CreateChallenge auth pk
  let s := s.log (.CreateChallenge auth pk r)
  match r with
  | .error err => (some (.wrapped "error in CreateChallenge: " err), s)
  | .ok challenge =>
  let w := s.write h (h.pathJoin "challenges" challenge.Token) challenge.Key 0o777
  let s := w.2
  match w.1 with
  | some err => (some (.wrapped "error in writing token file: " err), s)
  | none =>
  let r := cl.NotifyChallenge caDir acctKid pk challenge
  let s := s.log (.NotifyChallenge caDir acctKid pk challenge r)
  match r with
  | .error err => (some (.wrapped "error in NotifyChallenge: " err), s)
  | .ok _chal =>
  let e := cl.PollAuthorizationCompleted 60 2 order acctKid pk caDir
  let s := s.log (.PollAuthorizationCompleted 60 2 order acctKid pk caDir e)
  match e with
  | some err => (some (.wrapped "error in PollAuthorizationCompleted: " err), s)
  | none =>
  let r := cl.FinalizeOrder acctKid domain orderLocation pk caDir 2 order
  let s := s.log (.FinalizeOrder acctKid domain orderLocation pk caDir 2 order r)
  match r with
  | .error err => (some (.wrapped "error in FinalizeOrder: " err), s)
  | .ok resource =>
  let r := cl.GetCert resource acctKid pk caDir
  let s := s.log (.GetCert resource acctKid pk caDir r)
  match r with
  | .error err => (some (.wrapped "error in GetCert: " err), s)
  | .ok resource =>
  let w := s.write h (domain ++ ".cert") resource.Certificate 0o777
  let s := w.2
  match w.1 with
  | some err => (some (.wrapped "error in writing cert: " err), s)
  | none =>
  let w := s.write h (domain ++ ".key") resource.PrivateKey 0o777
  let s := w.2
  match w.1 with
  | some err => (some (.wrapped "error in writing key: " err), s)
  | none => (none, s)

/-! ## `http_server.go` -/

/-- Source `CreateCertReq` (lines 133-136). Neither field carries a struct tag. -/
structure CreateCertReq where
  Domain : String
  Provider : String
  deriving DecidableEq, Repr

/-- Source `GetCertRes` (lines 158-161). -/
structure GetCertRes where
  Cert : Bytes
  Key : Bytes
  deriving DecidableEq, Repr

/-- The record `control_plane.ChallengeTokenRes` of the Gildra module. -/
structure ChallengeTokenRes where
  Key : Bytes
  deriving DecidableEq, Repr

/-- The record `routing.Destination` of the Gildra module; fields the handler leaves
at their zero value are not listed. -/
structure Destination where
  URL : String
  deriving DecidableEq, Repr

/-- The record `routing.Match`. -/
structure Match where
  Destinations : List Destination
  deriving DecidableEq, Repr

/-- The record `routing.Rule`. -/
structure Rule where
  Matches : List Match
  deriving DecidableEq, Repr

/-- The record `routing.Config`. -/
structure Config where
  Rules : List Rule
  deriving DecidableEq, Repr

/-- The value handed to `c.JSON`. -/
inductive JSONBody where
  | cert (res : GetCertRes)
  | config (res : Config)
  | token (res : ChallengeTokenRes)
  deriving DecidableEq, Repr

/-- What a handler answers with: the call on the context it returns. -/
inductive Response where
  /-- the call `c.String(code, body)` -/
  | string (code : Nat) (body : String)
  /-- the call `c.JSON(code, body)` -/
  | json (code : Nat) (body : JSONBody)
  /-- the call `c.InternalError(err, msg)` -/
  | internalError (err : GoError) (msg : String)
  deriving DecidableEq, Repr

/-- Modelled from the spec: `CustomContext.InternalError` is declared in a file of
this package that is not among the sources; the spec calls its answer a "generic
internal-server-error HTTP response", that is status 500. -/
def Response.status : Response → Nat
  | .string code _ => code
  | .json code _ => code
  | .internalError _ _ => 500

/-! ### The body of a JSON answer -/

/-- Whether a byte lies in a closed range. -/
def inRange (b : Fin 256) (lo hi : Nat) : Bool :=
  decide (lo ≤ b.val) && decide (b.val ≤ hi)

/-- The number of bytes of the UTF-8 encoding at the head of a byte string, `none`
when the head is not the start of a valid encoding (Go `utf8.DecodeRune` then
reports `RuneError` with size 1). -/
def utf8Width : Bytes → Option Nat
  | [] => none
  | b0 :: rest =>
    if b0.val < 0x80 then some 1
    else if inRange b0 0xC2 0xDF then
      match rest with
      | b1 :: _ => if inRange b1 0x80 0xBF then some 2 else none
      | _ => none
    else if inRange b0 0xE0 0xEF then
      match rest with
      | b1 :: b2 :: _ =>
        if inRange b1 (if b0.val = 0xE0 then 0xA0 else 0x80)
              (if b0.val = 0xED then 0x9F else 0xBF)
            && inRange b2 0x80 0xBF then some 3
        else none
      | _ => none
    else if inRange b0 0xF0 0xF4 then
      match rest with
      | b1 :: b2 :: b3 :: _ =>
        if inRange b1 (if b0.val = 0xF0 then 0x90 else 0x80)
              (if b0.val = 0xF4 then 0x8F else 0xBF)
            && inRange b2 0x80 0xBF && inRange b3 0x80 0xBF then some 4
        else none
      | _ => none
    else none

/-- The loop of `toValidUTF8`; `fuel` bounds the number of encodings read. -/
def toValidUTF8Aux : Nat → Bytes → Bytes
  | 0, _ => []
  | _ + 1, [] => []
  | fuel + 1, b :: bs =>
    match utf8Width (b :: bs) with
    | some w => (b :: bs).take w ++ toValidUTF8Aux fuel ((b :: bs).drop w)
    | none => [0xEF, 0xBF, 0xBD] ++ toValidUTF8Aux fuel bs

/-- Modelled from the spec: `utils.NoEscapeJSONSerializer`, the serializer the server
installs, is declared in a file that is not among the sources; the spec calls the
wire format "JSON encoding of plain structs". This is a Go string as a JSON decoder
reads it back from that encoding: Go `encoding/json` writes every byte that is not
part of a valid UTF-8 encoding as U+FFFD, and every escape it writes decodes to the
character escaped. -/
def toValidUTF8 (s : Bytes) : Bytes := toValidUTF8Aux s.length s

/-- The loop of `utf8Valid`. -/
def utf8ValidAux : Nat → Bytes → Bool
  | 0, s => s.isEmpty
  | _ + 1, [] => true
  | fuel + 1, b :: bs =>
    match utf8Width (b :: bs) with
    | some w => utf8ValidAux fuel ((b :: bs).drop w)
    | none => false

/-- Go `utf8.Valid`: the byte string consists of valid UTF-8 encodings only. -/
def utf8Valid (s : Bytes) : Bool := utf8ValidAux s.length s

/-- The value a JSON decoder reads from the body written for a value handed to
`c.JSON`. The URL of a destination is text already. -/
def JSONBody.wire : JSONBody → JSONBody
  | .cert res => .cert ⟨toValidUTF8 res.Cert, toValidUTF8 res.Key⟩
  | .config res => .config res
  | .token res => .token ⟨toValidUTF8 res.Key⟩

/-- The answer as its receiver decodes it. -/
def Response.wire : Response → Response
  | .json code body => .json code body.wire
  | r => r

/-- The part of an echo context the handlers use: the outcome of `c.Bind` on a
`CreateCertReq`, and the path parameters. -/
structure Context where
  bind : Except GoError CreateCertReq
  Param : String → String

/-- What the validator sees of a struct field by reflection: its name, its
`validate` struct tag (`none` when the field has none) and whether its value is the
zero value of its type. -/
structure FieldInfo where
  name : String
  tag : Option String
  isZero : Bool
  deriving DecidableEq, Repr

/-- The fields of a `CreateCertReq` as declared at lines 133-136. -/
def CreateCertReq.fields (r : CreateCertReq) : List FieldInfo :=
  [⟨"Domain", none, r.Domain == ""⟩, ⟨"Provider", none, r.Provider == ""⟩]

/-- The method `Struct` of `validator.Validate` (go-playground/validator), for
the rule `required`: a field is checked only against its own `validate` tag, and a
field tagged `required` must not hold its zero value. -/
def validatorStruct (fields : List FieldInfo) : Option GoError :=
  match fields.find? (fun f => f.tag == some "required" && f.isZero) with
  | some f => some (.ext ("Field validation for " ++ f.name ++ " failed on the required tag"))
  | none => none

/-- Source `CustomValidator.Validate` (lines 77-82). -/
def CustomValidator.Validate (i : CreateCertReq) : Option GoError :=
  match validatorStruct i.fields with
  | some err => some (.http 400 err.Error)
  | none => none

/-- Source `ValidateRequest` (lines 84-92), at its one call site: the error, or the
bound request when there is none. -/
def ValidateRequest (c : Context) : Except GoError CreateCertReq :=
  match c.bind with
  | .error err => .error (.http 400 err.Error)
  | .ok s =>
    match CustomValidator.Validate s with
    | some err => .error err
    | none => .ok s

/-- Source `HTTPServer.CreateCert` (lines 138-156). -/
def CreateCert (cl : ACMEClient) (h : Host) (c : Context) (s : Sys) : Response × Sys :=
  match ValidateRequest c with
  | .error err => (.string 400 err.Error, s)
  | .ok reqBody =>
    let r : Option GoError × Sys :=
      if reqBody.Provider = "le-staging" ∨ reqBody.Provider = "" then
        createLEStagingCert cl h reqBody.Domain s
      else if reqBody.Provider = "zerossl" then
        createZeroSSLCert cl h reqBody.Domain s
      else
        (none, s)
    match r.1 with
    | some err => (.internalError err "error creating cert", r.2)
    | none => (.string 200 "created cert for domain!", r.2)

/-- Source `HTTPServer.GetCert` (lines 163-185). -/
def GetCert (h : Host) (c : Context) (s : Sys) : Response × Sys :=
  let domain := c.Param "domain"
  if domain = "" then
    (.string 400 "missing domain query param", s)
  else
    let r := s.read h (domain ++ ".cert")
    let s := r.2
    match r.1 with
    | .error err => (.internalError err "error reading cert", s)
    | .ok certBytes =>
    let r := s.read h (domain ++ ".key")
    let s := r.2
    match r.1 with
    | .error err => (.internalError err "error reading key", s)
    | .ok keyBytes =>
    (.json 200 (.cert ⟨certBytes, keyBytes⟩), s)

/-- Source `HTTPServer.GetConfig` (lines 187-208). -/
def GetConfig (c : Context) (s : Sys) : Response × Sys :=
  let domain := c.Param "domain"
  if domain = "" then
    (.string 400 "missing domain query param", s)
  else
    let res : Config := ⟨[⟨[⟨[⟨"http://localhost:8080"⟩]⟩]⟩]⟩
    (.json 200 (.config res), s)

/-- Source `HTTPServer.GetTokenKey` (lines 210-222). -/
def GetTokenKey (h : Host) (c : Context) (s : Sys) : Response × Sys :=
  let token := c.Param "token"
  if token = "" then
    (.string 400 "missing token query param", s)
  else
    let r := s.read h (h.pathJoin "challenges" token)
    let s := r.2
    match r.1 with
    | .error err => (.internalError err "error reading cert", s)
    | .ok keyBytes => (.json 200 (.token ⟨keyBytes⟩), s)

/-! ## The two routines as one procedure

This definition follows the specification's wording, "the same procedure up to two
parameters", and is compared with the two source routines below. -/

/-- The issuance procedure with the directory URL and the external-account-binding
options as parameters. -/
def issueCertWith (url : String) (eab : Option EABOptions) (cl : ACMEClient) (h : Host)
    (domain : String) (s : Sys) : Option GoError × Sys :=
  let r := cl.GetCADir url
  let s := s.log (.GetCADir url r)
  match r with
  | .error err => (some (.wrapped "error in GetCADir: " err), s)
  | .ok caDir =>
  let r := cl.CreateAccount "deftesting@icloud.com" caDir eab
  let s := s.log (.CreateAccount "deftesting@icloud.com" caDir eab r)
  match r with
  | .error err => (some (.wrapped "error in CreateAccount: " err), s)
  | .ok (acctKid, pk) =>
  let r := cl.CreateOrder acctKid domain caDir pk
  let s := s.log (.CreateOrder acctKid domain caDir pk r)
  match r with
  | .error err => (some (.wrapped "error in CreateOrder: " err), s)
  | .ok (orderLocation, order) =>
  let r := cl.GetAuthorization acctKid pk caDir order
  let s := s.log (.GetAuthorization acctKid pk caDir order r)
  match r with
  | .error err => (some (.wrapped "error in GetAuthorization: " err), s)
  | .ok auth =>
  let r := cl.CreateChallenge auth pk
  let s := s.log (.CreateChallenge auth pk r)
  match r with
  | .error err => (some (.wrapped "error in CreateChallenge: " err), s)
  | .ok challenge =>
  let w := s.write h (h.pathJoin "challenges" challenge.Token) challenge.Key 0o777
  let s := w.2
  match w.1 with
  | some err => (some (.wrapped "error in writing token file: " err), s)
  | none =>
  let r := cl.NotifyChallenge caDir acctKid pk challenge
  let s := s.log (.NotifyChallenge caDir acctKid pk challenge r)
  match r with
  | .error err => (some (.wrapped "error in NotifyChallenge: " err), s)
  | .ok _chal =>
  let e := cl.PollAuthorizationCompleted 60 2 order acctKid pk caDir
  let s := s.log (.PollAuthorizationCompleted 60 2 order acctKid pk caDir e)
  match e with
  | some err => (some (.wrapped "error in PollAuthorizationCompleted: " err), s)
  | none =>
  let r := cl.FinalizeOrder acctKid domain orderLocation pk caDir 2 order
  let s := s.log (.FinalizeOrder acctKid domain orderLocation pk caDir 2 order r)
  match r with
  | .error err => (some (.wrapped "error in FinalizeOrder: " err), s)
  | .ok resource =>
  let r := cl.GetCert resource acctKid pk caDir
  let s := s.log (.GetCert resource acctKid pk caDir r)
  match r with
  | .error err => (some (.wrapped "error in GetCert: " err), s)
  | .ok resource =>
  let w := s.write h (domain ++ ".cert") resource.Certificate 0o777
  let s := w.2
  match w.1 with
  | some err => (some (.wrapped "error in writing cert: " err), s)
  | none =>
  let w := s.write h (domain ++ ".key") resource.PrivateKey 0o777
  let s := w.2
  match w.1 with
  | some err => (some (.wrapped "error in writing key: " err), s)
  | none => (none, s)

/-! ## Reading a trace -/

/-- The calls of a state, in the order they were made. -/
def calls (s : Sys) : List Event := s.trace.map Logged.ev

/-- The twelve steps of an issuance routine, in source order. -/
def stepOrder : List Op :=
  [.GetCADir, .CreateAccount, .CreateOrder, .GetAuthorization, .CreateChallenge, .WriteFile,
   .NotifyChallenge, .PollAuthorizationCompleted, .FinalizeOrder, .GetCert, .WriteFile,
   .WriteFile]

/-- The text each step puts in front of the error it wraps, in source order. -/
def stepMessage : List String :=
  ["error in GetCADir: ", "error in CreateAccount: ", "error in CreateOrder: ",
   "error in GetAuthorization: ", "error in CreateChallenge: ", "error in writing token file: ",
   "error in NotifyChallenge: ", "error in PollAuthorizationCompleted: ",
   "error in FinalizeOrder: ", "error in GetCert: ", "error in writing cert: ",
   "error in writing key: "]

/-- The position (from 0) and the error of the first call of a trace that failed. -/
def firstFailure : List Event → Option (Nat × GoError)
  | [] => none
  | ev :: rest =>
    match ev.err with
    | some e => some (0, e)
    | none => (firstFailure rest).map (fun p => (p.1 + 1, p.2))

/-- A trace entry is genuine when its recorded outcome is the one the client, or the
host for a file operation, gives for the recorded arguments in the recorded file
system. -/
def Logged.genuine (cl : ACMEClient) (h : Host) (l : Logged) : Prop :=
  match l.ev with
  | .GetCADir url out => out = cl.GetCADir url
  | .CreateAccount email caDir eab out => out = cl.CreateAccount email caDir eab
  | .CreateOrder acctKid domain caDir pk out => out = cl.CreateOrder acctKid domain caDir pk
  | .GetAuthorization acctKid pk caDir order out =>
      out = cl.GetAuthorization acctKid pk caDir order
  | .CreateChallenge auth pk out => out = cl.CreateChallenge auth pk
  | .WriteFile name data _ out => out = (WriteFile h l.pre name data).1
  | .NotifyChallenge caDir acctKid pk challenge out =>
      out = cl.NotifyChallenge caDir acctKid pk challenge
  | .PollAuthorizationCompleted deadline interval order acctKid pk caDir out =>
      out = cl.PollAuthorizationCompleted deadline interval order acctKid pk caDir
  | .FinalizeOrder acctKid domain orderLocation pk caDir interval order out =>
      out = cl.FinalizeOrder acctKid domain orderLocation pk caDir interval order
  | .GetCert resource acctKid pk caDir out => out = cl.GetCert resource acctKid pk caDir
  | .ReadFile name out => out = ReadFile h l.pre name

/-- The file system after an observed call made in file system `fs`: only a write
changes it. -/
def Event.effect (h : Host) (fs : FS) : Event → FS
  | .WriteFile name data _ _ => (GildraControlPlane.WriteFile h fs name data).2
  | _ => fs

/-- The resources the successful `GetCert` calls of a trace returned. -/
def yieldedCerts : List Event → List Resource
  | [] => []
  | .GetCert _ _ _ _ (.ok res) :: rest => res :: yieldedCerts rest
  | _ :: rest => yieldedCerts rest

/-- The challenges the successful `CreateChallenge` calls of a trace returned. -/
def yieldedChallenges : List Event → List Challenge
  | [] => []
  | .CreateChallenge _ _ (.ok ch) :: rest => ch :: yieldedChallenges rest
  | _ :: rest => yieldedChallenges rest

/-- The event with the two arguments that tell the providers apart blanked: the
URL given to `GetCADir` and the options given to `CreateAccount`. -/
def Event.eraseProvider : Event → Event
  | .GetCADir _ out => .GetCADir "" out
  | .CreateAccount email caDir _ out => .CreateAccount email caDir none out
  | ev => ev

/-! ## Concrete inputs -/

/-- A client every call of which succeeds. -/
def okClient : ACMEClient where
  GetCADir _ := .ok ⟨"directory"⟩
  CreateAccount _ _ _ := .ok ("kid-1", ⟨"account-key"⟩)
  CreateOrder _ _ _ _ := .ok ("order-location", ⟨"order"⟩)
  GetAuthorization _ _ _ _ := .ok ⟨"authorization"⟩
  CreateChallenge _ _ := .ok ⟨"tok", [107, 101, 121], "http-01"⟩
  NotifyChallenge _ _ _ _ := .ok ⟨"processing"⟩
  PollAuthorizationCompleted _ _ _ _ _ _ := none
  FinalizeOrder _ _ _ _ _ _ _ := .ok ⟨[], [], "finalized"⟩
  GetCert _ _ _ _ := .ok ⟨[67, 69, 82, 84], [75, 69, 89], "issued"⟩

/-- A client whose `GetCert` call fails; every call before it succeeds. -/
def noCertClient : ACMEClient :=
  { okClient with GetCert := fun _ _ _ _ => .error (.ext "badNonce") }

/-- A client whose certificate is not valid UTF-8. -/
def rawBytesClient : ACMEClient :=
  { okClient with GetCert := fun _ _ _ _ => .ok ⟨[0xFF, 0xFE], [75, 69, 89], "issued"⟩ }

/-- A client whose challenge token is "x.cert" and whose `NotifyChallenge` call
fails. -/
def aliasClient : ACMEClient :=
  { okClient with
    CreateChallenge := fun _ _ => .ok ⟨"x.cert", [107, 101, 121], "http-01"⟩
    NotifyChallenge := fun _ _ _ _ => .error (.ext "unauthorized") }

/-- A host on which every write succeeds. -/
def okHost : Host where
  pathJoin := goPathJoin
  cwd := "/srv"
  Getenv _ := ""
  writeFault _ _ := none
  readErr name := .ext ("open " ++ name ++ ": no such file or directory")

/-- A context that carries nothing but one value for every path parameter. -/
def paramContext (value : String) : Context where
  bind := .error (.ext "EOF")
  Param _ := value

/-- A context the body of which binds to the given request. -/
def bodyContext (req : CreateCertReq) : Context where
  bind := .ok req
  Param _ := ""

/-! ## Shared lemmas -/

theorem createLEStagingCert_eq_issueCertWith (cl : ACMEClient) (h : Host) (domain : String)
    (s : Sys) :
    createLEStagingCert cl h domain s =
      issueCertWith "https://acme-staging-v02.api.letsencrypt.org/directory" none cl h domain s :=
  rfl

theorem createZeroSSLCert_eq_issueCertWith (cl : ACMEClient) (h : Host) (domain : String)
    (s : Sys) :
    createZeroSSLCert cl h domain s =
      issueCertWith "https://acme.zerossl.com/v2/DV90/directory"
        (some ⟨h.Getenv "ZEROSSL_KID", h.Getenv "ZEROSSL_HMAC"⟩) cl h domain s :=
  rfl

/-! ## Facts about paths, the file system and JSON strings used below -/

theorem splitSlash_of_no_slash (s : List Char) (h : '/' ∉ s) : splitSlash s = [s] := by
  induction s with
  | nil => rfl
  | cons c cs ih =>
    have hc : c ≠ '/' := fun e => h (by simp [e])
    have hcs : '/' ∉ cs := fun e => h (List.mem_cons_of_mem _ e)
    simp [splitSlash, hc, ih hcs]

theorem splitSlash_append (a suf : List Char) (h : '/' ∉ suf) :
    ∃ init last, splitSlash a = init ++ [last] ∧
      splitSlash (a ++ suf) = init ++ [last ++ suf] := by
  induction a with
  | nil => exact ⟨[], [], rfl, by simpa using splitSlash_of_no_slash suf h⟩
  | cons c cs ih =>
    obtain ⟨init, last, h1, h2⟩ := ih
    by_cases hc : c = '/'
    · exact ⟨[] :: init, last, by simp [splitSlash, hc, h1], by simp [splitSlash, hc, h2]⟩
    · cases init with
      | nil => exact ⟨[], c :: last, by simp [splitSlash, hc, h1], by simp [splitSlash, hc, h2]⟩
      | cons x xs =>
        exact ⟨(c :: x) :: xs, last, by simp [splitSlash, hc, h1], by simp [splitSlash, hc, h2]⟩

theorem cleanStep_of_long (rooted : Bool) (stack : List (List Char)) (elem : List Char)
    (h : 2 < elem.length) : cleanStep rooted stack elem = elem :: stack := by
  have h0 : elem ≠ [] := by rintro rfl; simp at h
  have h1 : elem ≠ ['.'] := by rintro rfl; simp at h
  have h2 : elem ≠ ['.', '.'] := by rintro rfl; simp at h
  simp [cleanStep, h0, h1, h2]

theorem joinSlash_snoc (xs : List (List Char)) :
    ∃ pre, ∀ t, joinSlash (xs ++ [t]) = pre ++ t := by
  induction xs with
  | nil => exact ⟨[], fun t => rfl⟩
  | cons x xs ih =>
    obtain ⟨pre, hpre⟩ := ih
    refine ⟨x ++ '/' :: pre, fun t => ?_⟩
    cases xs with
    | nil => simpa [joinSlash] using hpre t
    | cons y ys =>
      have := hpre t
      simp only [List.cons_append] at this ⊢
      simp [joinSlash, this]

/-- A path that ends in a suffix without a slash, longer than two characters, is
cleaned to a path that ends in that suffix, after a part that is the same for all
such suffixes. -/
theorem cleanPath_append (d : String) :
    ∃ pre : List Char, ∀ suf : String, '/' ∉ suf.data → 2 < suf.data.length →
      cleanPath (d ++ suf) = String.mk (pre ++ suf.data) := by
  obtain ⟨init, last, -, hsplit⟩ : ∃ init last, splitSlash d.data = init ++ [last] ∧
      ∀ suf : List Char, '/' ∉ suf → splitSlash (d.data ++ suf) = init ++ [last ++ suf] := by
    obtain ⟨init, last, h1, -⟩ := splitSlash_append d.data [] (by simp)
    refine ⟨init, last, h1, fun suf hs => ?_⟩
    obtain ⟨init2, last2, h1b, h2b⟩ := splitSlash_append d.data suf hs
    have := h1.symm.trans h1b
    obtain ⟨e1, e2⟩ := List.append_inj' this rfl
    simp only [List.cons.injEq, and_true] at e2
    rw [h2b, e1, e2]
  obtain ⟨pre, hpre⟩ := joinSlash_snoc
    (((init.foldl (cleanStep (d.data.head? == some '/')) [])).reverse)
  refine ⟨(if (d.data.head? == some '/') = true then ['/'] else []) ++ pre ++ last,
    fun suf hs hl => ?_⟩
  have hroot : ((d ++ suf).data.head? == some '/') = (d.data.head? == some '/') := by
    rw [String.data_append]
    cases hd : d.data with
    | nil =>
      cases hsd : suf.data with
      | nil => rfl
      | cons c cs =>
        have : c ≠ '/' := fun e => hs (by simp [hsd, e])
        simp [this]
    | cons c cs => simp
  have hlong : 2 < (last ++ suf.data).length := by
    rw [List.length_append]; omega
  have hkept : (List.foldl (cleanStep (d.data.head? == some '/')) []
      (splitSlash (d ++ suf).data)).reverse =
      (List.foldl (cleanStep (d.data.head? == some '/')) [] init).reverse ++
        [last ++ suf.data] := by
    rw [String.data_append, hsplit suf.data hs, List.foldl_append]
    simp only [List.foldl_cons, List.foldl_nil, cleanStep_of_long _ _ _ hlong,
      List.reverse_cons]
  unfold cleanPath
  simp only [hroot, hkept, hpre]
  simp

theorem cleanPath_cert_ne_key (d : String) :
    cleanPath (d ++ ".cert") ≠ cleanPath (d ++ ".key") := by
  obtain ⟨pre, hpre⟩ := cleanPath_append d
  rw [hpre ".cert" (by decide) (by decide), hpre ".key" (by decide) (by decide)]
  intro h
  have h2 : pre ++ ".cert".data = pre ++ ".key".data := by
    simpa using congrArg String.data h
  exact absurd (List.append_cancel_left h2) (by decide)

/-- A path followed by a suffix that does not start with a slash starts with a slash
exactly when the path does. -/
theorem head_append_suffix (d suf : String) (c : Char) (cs : List Char)
    (hsuf : suf.data = c :: cs) (hc : c ≠ '/') :
    ((d ++ suf).data.head? == some '/') = (d.data.head? == some '/') := by
  rw [String.data_append]
  cases hd : d.data with
  | nil => simp [hsuf, hc]
  | cons x xs => simp

/-- The certificate file and the key file of a domain are two files. -/
theorem fileOf_cert_ne_key (h : Host) (d : String) :
    h.fileOf (d ++ ".cert") ≠ h.fileOf (d ++ ".key") := by
  unfold Host.fileOf
  rw [head_append_suffix d ".cert" '.' _ rfl (by decide),
    head_append_suffix d ".key" '.' _ rfl (by decide)]
  split
  · exact cleanPath_cert_ne_key d
  · rw [← String.append_assoc, ← String.append_assoc]
    exact cleanPath_cert_ne_key (h.cwd ++ "/" ++ d)

theorem WriteFile_lookup_of_ne (h : Host) (fs : FS) (name : String) (key : String)
    (data : Bytes) (hp : key ≠ h.fileOf name) :
    (WriteFile h fs name data).2.lookup key = fs.lookup key := by
  have hb : (key == h.fileOf name) = false := by simpa using hp
  unfold WriteFile
  split <;> simp [List.lookup, hb]

theorem WriteFile_lookup_self (h : Host) (fs : FS) (name : String) (data : Bytes)
    (hok : (WriteFile h fs name data).1 = none) :
    (WriteFile h fs name data).2.lookup (h.fileOf name) = some data := by
  unfold WriteFile at hok ⊢
  split <;> simp_all [List.lookup]

/-- A write touches no file but its own, whether it succeeds or fails. -/
theorem WriteFile_read_of_ne (h : Host) (fs : FS) (name p : String) (data : Bytes)
    (hp : h.fileOf p ≠ h.fileOf name) :
    ReadFile h (WriteFile h fs name data).2 p = ReadFile h fs p := by
  unfold ReadFile
  rw [WriteFile_lookup_of_ne h fs name (h.fileOf p) data hp]

/-- After a write that reported no error the file holds the data. -/
theorem WriteFile_read_self (h : Host) (fs : FS) (name : String) (data : Bytes)
    (hok : (WriteFile h fs name data).1 = none) :
    ReadFile h (WriteFile h fs name data).2 name = .ok data := by
  unfold ReadFile
  rw [WriteFile_lookup_self h fs name data hok]

theorem utf8Width_pos (s : Bytes) (w : Nat) (h : utf8Width s = some w) : 1 ≤ w := by
  unfold utf8Width at h
  repeat' split at h
  all_goals first
    | (cases h; done)
    | (injection h with h; omega)

theorem toValidUTF8Aux_of_valid : ∀ (fuel : Nat) (s : Bytes), s.length ≤ fuel →
    utf8ValidAux fuel s = true → toValidUTF8Aux fuel s = s := by
  intro fuel
  induction fuel with
  | zero =>
    intro s hs _
    have : s = [] := List.length_eq_zero.mp (Nat.le_zero.mp hs)
    subst this; rfl
  | succ n ih =>
    intro s hs hv
    cases s with
    | nil => rfl
    | cons b bs =>
      simp only [utf8ValidAux] at hv
      simp only [toValidUTF8Aux]
      cases hw : utf8Width (b :: bs) with
      | none => simp [hw] at hv
      | some w =>
        simp only [hw] at hv ⊢
        have hpos := utf8Width_pos _ _ hw
        have hlen : ((b :: bs).drop w).length ≤ n := by
          rw [List.length_drop]; simp only [List.length_cons] at hs ⊢; omega
        rw [ih _ hlen hv, List.take_append_drop]

/-- Valid UTF-8 passes through `toValidUTF8` unchanged. -/
theorem toValidUTF8_of_valid (s : Bytes) (h : utf8Valid s = true) : toValidUTF8 s = s :=
  toValidUTF8Aux_of_valid s.length s (Nat.le_refl _) h

/-- The call `firstFailure` points at is in the trace and failed with that error. -/
theorem firstFailure_get (t : List Event) (k : Nat) (e : GoError)
    (h : firstFailure t = some (k, e)) : ∃ ev, t[k]? = some ev ∧ ev.err = some e := by
  induction t generalizing k with
  | nil => simp [firstFailure] at h
  | cons ev rest ih =>
    cases hev : ev.err with
    | some e0 =>
      simp only [firstFailure, hev, Option.some.injEq, Prod.mk.injEq] at h
      obtain ⟨rfl, rfl⟩ := h
      exact ⟨ev, by simp, hev⟩
    | none =>
      simp only [firstFailure, hev, Option.map_eq_some', Prod.mk.injEq] at h
      obtain ⟨⟨k0, e0⟩, hrest, rfl, rfl⟩ := h
      obtain ⟨ev0, h1, h2⟩ := ih k0 hrest
      exact ⟨ev0, by simpa using h1, h2⟩

/-- A trace that ends at its first failure, or has all twelve calls when none failed,
goes on after every call that succeeded. -/
theorem progress_of_firstFailure (t : List Event)
    (hfail : ∀ k e, firstFailure t = some (k, e) → t.length = k + 1)
    (hnone : firstFailure t = none → t.length = 12)
    (i : Nat) (ev : Event) (hi : t[i]? = some ev) (hok : ev.err = none) (h12 : i + 1 < 12) :
    i + 1 < t.length := by
  have hlt : i < t.length := by
    by_contra hge
    rw [List.getElem?_eq_none (Nat.le_of_not_lt hge)] at hi
    cases hi
  cases hff : firstFailure t with
  | none => rw [hnone hff]; exact h12
  | some p =>
    obtain ⟨k, e⟩ := p
    obtain ⟨ev0, h1, h2⟩ := firstFailure_get t k e hff
    have hlen := hfail k e hff
    have hne : i ≠ k := by
      rintro rfl
      rw [hi] at h1
      cases h1
      rw [hok] at h2
      cases h2
    omega

/-- Once the token file was written without error, `GetTokenKey` serves the key. -/
theorem GetTokenKey_after_write (h : Host) (fs : FS) (ch : Challenge)
    (hw : (WriteFile h fs (h.pathJoin "challenges" ch.Token) ch.Key).1 = none)
    (c : Context) (tr : List Logged) (hc : c.Param "token" = ch.Token) (ht : ch.Token ≠ "") :
    (GetTokenKey h c ⟨(WriteFile h fs (h.pathJoin "challenges" ch.Token) ch.Key).2, tr⟩).1 =
      .json 200 (.token ⟨ch.Key⟩) := by
  have e := WriteFile_lookup_self _ _ _ _ hw
  simp [GetTokenKey, Sys.read, Sys.log, ReadFile, hc, ht, e]

theorem issueCertWith_head_not_notify (url : String) (eab : Option EABOptions)
    (cl : ACMEClient) (h : Host) (d : String) (fs : FS) :
    ∀ l, (issueCertWith url eab cl h d ⟨fs, []⟩).2.trace.head? = some l →
      l.ev.op ≠ .NotifyChallenge := by
  simp only [issueCertWith]
  repeat' split
  all_goals simp only [Sys.log, Sys.write, List.nil_append, List.cons_append] at *
  all_goals simp [Event.op]

theorem issueCertWith_write_then_notify (url : String) (eab : Option EABOptions)
    (cl : ACMEClient) (h : Host) (d : String) (fs : FS) :
    List.Chain' (fun before cur => ∀ caDir acctKid pk ch out,
      cur.ev = .NotifyChallenge caDir acctKid pk ch out →
        before.ev = .WriteFile (h.pathJoin "challenges" ch.Token) ch.Key 0o777 none)
      (issueCertWith url eab cl h d ⟨fs, []⟩).2.trace := by
  simp only [issueCertWith]
  repeat' split
  all_goals simp only [Sys.log, Sys.write, List.nil_append, List.cons_append] at *
  all_goals simp only [List.chain'_cons, List.chain'_singleton, reduceCtorEq, false_implies,
    implies_true, and_true, true_and, Event.NotifyChallenge.injEq]
  all_goals
    rintro _ _ _ ch _ ⟨_, _, _, rfl, _⟩
    simp only [*]

theorem issueCertWith_notify_served (url : String) (eab : Option EABOptions)
    (cl : ACMEClient) (h : Host) (d : String) (fs : FS) :
    ∀ l ∈ (issueCertWith url eab cl h d ⟨fs, []⟩).2.trace, ∀ caDir acctKid pk ch out,
      l.ev = .NotifyChallenge caDir acctKid pk ch out →
        ∀ (c : Context) (tr : List Logged), c.Param "token" = ch.Token → ch.Token ≠ "" →
          (GetTokenKey h c ⟨l.pre, tr⟩).1 = .json 200 (.token ⟨ch.Key⟩) := by
  simp only [issueCertWith]
  repeat' split
  all_goals simp only [Sys.log, Sys.write, List.nil_append, List.cons_append] at *
  all_goals simp only [List.mem_cons, List.mem_singleton, List.not_mem_nil, forall_eq_or_imp,
    forall_eq, or_false]
  all_goals simp only [reduceCtorEq, false_implies, implies_true, and_true, true_and,
    Event.NotifyChallenge.injEq]
  all_goals
    rintro _ _ _ ch _ ⟨_, _, _, rfl, _⟩ c tr hc ht
    exact GetTokenKey_after_write h fs _ (by assumption) c tr hc ht

/-- The issuance procedure run with two choices of directory URL and account options
that the client answers alike returns the same error, leaves the same file system
and makes the same calls, apart from those two arguments. -/
theorem issueCertWith_congr (url1 url2 : String) (eab1 eab2 : Option EABOptions)
    (cl : ACMEClient) (h : Host) (d : String) (s : Sys)
    (hdir : cl.GetCADir url1 = cl.GetCADir url2)
    (hacct : ∀ caDir, cl.CreateAccount "deftesting@icloud.com" caDir eab1 =
      cl.CreateAccount "deftesting@icloud.com" caDir eab2) :
    (issueCertWith url1 eab1 cl h d s).1 = (issueCertWith url2 eab2 cl h d s).1 ∧
    (issueCertWith url1 eab1 cl h d s).2.fs = (issueCertWith url2 eab2 cl h d s).2.fs ∧
    (calls (issueCertWith url1 eab1 cl h d s).2).map Event.eraseProvider =
      (calls (issueCertWith url2 eab2 cl h d s).2).map Event.eraseProvider := by
  simp only [issueCertWith, hdir, hacct, Sys.log, Sys.write]
  repeat' (split <;> try simp only [*])
  all_goals simp [*, calls, Event.eraseProvider]

/-! ## The claims -/

/-- C1: for a request that passes `ValidateRequest`, with provider "le-staging" or
"" the handler answers 200 "created cert for domain!" exactly when
`createLEStagingCert` returned no error, and with provider "zerossl" exactly when
`createZeroSSLCert` returned no error; when the routine returns an error the answer
is `c.InternalError(err, "error creating cert")` and not the success answer. -/
theorem CreateCert_success_iff_routine_nil (cl : ACMEClient) (h : Host) (c : Context)
    (s : Sys) (req : CreateCertReq) (hv : ValidateRequest c = .ok req) :
    ((req.Provider = "le-staging" ∨ req.Provider = "") →
      ((CreateCert cl h c s).1 = .string 200 "created cert for domain!" ↔
        (createLEStagingCert cl h req.Domain s).1 = none) ∧
      (∀ err, (createLEStagingCert cl h req.Domain s).1 = some err →
        (CreateCert cl h c s).1 = .internalError err "error creating cert" ∧
        (CreateCert cl h c s).1 ≠ .string 200 "created cert for domain!")) ∧
    (req.Provider = "zerossl" →
      ((CreateCert cl h c s).1 = .string 200 "created cert for domain!" ↔
        (createZeroSSLCert cl h req.Domain s).1 = none) ∧
      (∀ err, (createZeroSSLCert cl h req.Domain s).1 = some err →
        (CreateCert cl h c s).1 = .internalError err "error creating cert" ∧
        (CreateCert cl h c s).1 ≠ .string 200 "created cert for domain!")) := by
  constructor
  · intro hp
    simp only [CreateCert, hv, if_pos hp]
    cases hr : (createLEStagingCert cl h req.Domain s).1 <;> simp
  · intro hp
    have h1 : ¬ (req.Provider = "le-staging" ∨ req.Provider = "") := by
      rw [hp]; decide
    simp only [CreateCert, hv, if_neg h1, if_pos hp]
    cases hr : (createZeroSSLCert cl h req.Domain s).1 <;> simp

/-- The "zerossl" request for example.com against a client that never fails: it
passes validation, `createZeroSSLCert` returns nil, and the handler answers 200. -/
theorem CreateCert_success_iff_routine_nil_witness :
    ValidateRequest (bodyContext ⟨"example.com", "zerossl"⟩) = .ok ⟨"example.com", "zerossl"⟩ ∧
    (createZeroSSLCert okClient okHost "example.com" ⟨[], []⟩).1 = none ∧
    (CreateCert okClient okHost (bodyContext ⟨"example.com", "zerossl"⟩) ⟨[], []⟩).1 =
      .string 200 "created cert for domain!" :=
  ⟨rfl, rfl, ((CreateCert_success_iff_routine_nil okClient okHost
    (bodyContext ⟨"example.com", "zerossl"⟩) ⟨[], []⟩ ⟨"example.com", "zerossl"⟩ rfl).2
      rfl).1.mpr rfl⟩

/-- C2: `createLEStagingCert` executes its twelve steps in the fixed order of
`stepOrder`, each at most once: the calls made are the first so many steps of the
order, starting with `GetCADir`, and after every call that succeeded the next step
is made. Every recorded outcome is the one the client or the host gave, the three
file writes go to the token path, "<domain>.cert" and "<domain>.key", and each write
is made on the file system: the state of the files follows the recorded calls. If
step `k` is the first to fail, it is the last call made and the routine returns that
step's error wrapped behind that step's "error in ..." text; an error is returned
only when a call failed; and the routine returns nil exactly when all twelve calls
were made and none failed, in which case the calls are the twelve of the source with
each argument taken from the outcomes before it. -/
theorem createLEStagingCert_fixed_order_no_retry (cl : ACMEClient) (h : Host) (d : String)
    (fs : FS) :
    let r := createLEStagingCert cl h d ⟨fs, []⟩
    (calls r.2).map Event.op = stepOrder.take (calls r.2).length ∧
    0 < (calls r.2).length ∧
    (∀ i ev, (calls r.2)[i]? = some ev → ev.err = none → i + 1 < 12 →
      i + 1 < (calls r.2).length) ∧
    (∀ l ∈ r.2.trace, l.genuine cl h) ∧
    (∀ l, r.2.trace.head? = some l → l.pre = fs) ∧
    List.Chain' (fun a b => b.pre = a.ev.effect h a.pre) r.2.trace ∧
    (∀ l, r.2.trace.getLast? = some l → r.2.fs = l.ev.effect h l.pre) ∧
    (∀ ev, (calls r.2)[5]? = some ev → ∃ ch out, ch ∈ yieldedChallenges (calls r.2) ∧
      ev = .WriteFile (h.pathJoin "challenges" ch.Token) ch.Key 0o777 out) ∧
    (∀ ev, (calls r.2)[10]? = some ev → ∃ res out, res ∈ yieldedCerts (calls r.2) ∧
      ev = .WriteFile (d ++ ".cert") res.Certificate 0o777 out) ∧
    (∀ ev, (calls r.2)[11]? = some ev → ∃ res out, res ∈ yieldedCerts (calls r.2) ∧
      ev = .WriteFile (d ++ ".key") res.PrivateKey 0o777 out) ∧
    (∀ k e, firstFailure (calls r.2) = some (k, e) →
      (calls r.2).length = k + 1 ∧ r.1 = some (.wrapped (stepMessage.getD k "") e) ∧
      r.1.bind GoError.Unwrap = some e) ∧
    (firstFailure (calls r.2) = none → r.1 = none ∧ (calls r.2).length = 12) ∧
    (∀ e, r.1 = some e → ∃ k e0, firstFailure (calls r.2) = some (k, e0)) ∧
    (r.1 = none ↔ (calls r.2).length = 12 ∧ firstFailure (calls r.2) = none) ∧
    (r.1 = none → ∃ caDir acctKid pk orderLocation order auth challenge chal resource cert,
      calls r.2 =
        [.GetCADir "https://acme-staging-v02.api.letsencrypt.org/directory" (.ok caDir),
         .CreateAccount "deftesting@icloud.com" caDir none (.ok (acctKid, pk)),
         .CreateOrder acctKid d caDir pk (.ok (orderLocation, order)),
         .GetAuthorization acctKid pk caDir order (.ok auth),
         .CreateChallenge auth pk (.ok challenge),
         .WriteFile (h.pathJoin "challenges" challenge.Token) challenge.Key 0o777 none,
         .NotifyChallenge caDir acctKid pk challenge (.ok chal),
         .PollAuthorizationCompleted 60 2 order acctKid pk caDir none,
         .FinalizeOrder acctKid d orderLocation pk caDir 2 order (.ok resource),
         .GetCert resource acctKid pk caDir (.ok cert),
         .WriteFile (d ++ ".cert") cert.Certificate 0o777 none,
         .WriteFile (d ++ ".key") cert.PrivateKey 0o777 none]) := by
  intro r
  have main :
      (calls r.2).map Event.op = stepOrder.take (calls r.2).length ∧
      0 < (calls r.2).length ∧
      (∀ l ∈ r.2.trace, l.genuine cl h) ∧
      (∀ ev, (calls r.2)[5]? = some ev → ∃ ch out, ch ∈ yieldedChallenges (calls r.2) ∧
        ev = .WriteFile (h.pathJoin "challenges" ch.Token) ch.Key 0o777 out) ∧
      (∀ ev, (calls r.2)[10]? = some ev → ∃ res out, res ∈ yieldedCerts (calls r.2) ∧
        ev = .WriteFile (d ++ ".cert") res.Certificate 0o777 out) ∧
      (∀ ev, (calls r.2)[11]? = some ev → ∃ res out, res ∈ yieldedCerts (calls r.2) ∧
        ev = .WriteFile (d ++ ".key") res.PrivateKey 0o777 out) ∧
      (∀ k e, firstFailure (calls r.2) = some (k, e) →
        (calls r.2).length = k + 1 ∧ r.1 = some (.wrapped (stepMessage.getD k "") e) ∧
        r.1.bind GoError.Unwrap = some e) ∧
      (firstFailure (calls r.2) = none → r.1 = none ∧ (calls r.2).length = 12) ∧
      (∀ e, r.1 = some e → ∃ k e0, firstFailure (calls r.2) = some (k, e0)) ∧
      (r.1 = none ↔ (calls r.2).length = 12 ∧ firstFailure (calls r.2) = none) := by
    simp only [r, createLEStagingCert_eq_issueCertWith, issueCertWith]
    repeat' split
    all_goals simp only [Sys.log, Sys.write, List.nil_append, List.cons_append] at *
    all_goals simp [*, calls, stepOrder, stepMessage, Event.op, firstFailure, Event.err, errOf,
      Logged.genuine, yieldedChallenges, yieldedCerts, GoError.Unwrap]
  have files :
      (∀ l, r.2.trace.head? = some l → l.pre = fs) ∧
      List.Chain' (fun a b => b.pre = a.ev.effect h a.pre) r.2.trace ∧
      (∀ l, r.2.trace.getLast? = some l → r.2.fs = l.ev.effect h l.pre) := by
    simp only [r, createLEStagingCert_eq_issueCertWith, issueCertWith]
    repeat' split
    all_goals simp only [Sys.log, Sys.write, List.nil_append, List.cons_append] at *
    all_goals simp [Event.effect]
  have shape : r.1 = none →
      ∃ caDir acctKid pk orderLocation order auth challenge chal resource cert,
      calls r.2 =
        [.GetCADir "https://acme-staging-v02.api.letsencrypt.org/directory" (.ok caDir),
         .CreateAccount "deftesting@icloud.com" caDir none (.ok (acctKid, pk)),
         .CreateOrder acctKid d caDir pk (.ok (orderLocation, order)),
         .GetAuthorization acctKid pk caDir order (.ok auth),
         .CreateChallenge auth pk (.ok challenge),
         .WriteFile (h.pathJoin "challenges" challenge.Token) challenge.Key 0o777 none,
         .NotifyChallenge caDir acctKid pk challenge (.ok chal),
         .PollAuthorizationCompleted 60 2 order acctKid pk caDir none,
         .FinalizeOrder acctKid d orderLocation pk caDir 2 order (.ok resource),
         .GetCert resource acctKid pk caDir (.ok cert),
         .WriteFile (d ++ ".cert") cert.Certificate 0o777 none,
         .WriteFile (d ++ ".key") cert.PrivateKey 0o777 none] := by
    simp only [r, createLEStagingCert_eq_issueCertWith, issueCertWith]
    repeat' split
    all_goals simp only [Sys.log, Sys.write, List.nil_append, List.cons_append] at *
    all_goals first
      | (intro hnil; cases hnil; done)
      | (intro _; simp only [calls, List.map, *]; exact ⟨_, _, _, _, _, _, _, _, _, _, rfl⟩)
  obtain ⟨h1, h2, h3, h4, h5, h6, h7, h8, h9, h10⟩ := main
  exact ⟨h1, h2,
    progress_of_firstFailure _ (fun k e hk => (h7 k e hk).1) (fun hn => (h8 hn).2),
    h3, files.1, files.2.1, files.2.2, h4, h5, h6, h7, h8, h9, h10, shape⟩

/-- The run for example.com against a client whose `GetCert` fails: ten calls are
made, and the error is the one of `GetCert` behind "error in GetCert: "; against a
client that never fails: the last of the twelve calls is the write of the key, and
the key file holds the key afterwards. -/
theorem createLEStagingCert_fixed_order_no_retry_witness :
    firstFailure (calls (createLEStagingCert noCertClient okHost "example.com" ⟨[], []⟩).2) =
      some (9, .ext "badNonce") ∧
    (calls (createLEStagingCert noCertClient okHost "example.com" ⟨[], []⟩).2).length = 10 ∧
    (createLEStagingCert noCertClient okHost "example.com" ⟨[], []⟩).1 =
      some (.wrapped "error in GetCert: " (.ext "badNonce")) ∧
    (createLEStagingCert okClient okHost "example.com" ⟨[], []⟩).1 = none ∧
    (calls (createLEStagingCert okClient okHost "example.com" ⟨[], []⟩).2).length = 12 ∧
    ReadFile okHost (createLEStagingCert okClient okHost "example.com" ⟨[], []⟩).2.fs
      "example.com.key" = .ok [75, 69, 89] :=
  have w := (createLEStagingCert_fixed_order_no_retry noCertClient okHost "example.com"
    []).2.2.2.2.2.2.2.2.2.2.1 9 (.ext "badNonce") rfl
  have v := (createLEStagingCert_fixed_order_no_retry okClient okHost "example.com"
    []).2.2.2.2.2.2.2.2.2.2.2.1 rfl
  ⟨rfl, w.1, w.2.1, v.1, v.2, rfl⟩

/-- C3 (what the code does at the failing input): a request whose body binds to an
empty `Domain` passes `ValidateRequest`, the handler does not answer 400, and
`createLEStagingCert` is entered with the empty domain: its first call,
`GetCADir`, is recorded. -/
theorem CreateCert_empty_domain_not_rejected (cl : ACMEClient) (h : Host) (fs : FS)
    (pm : String → String) :
    ValidateRequest ⟨.ok ⟨"", "le-staging"⟩, pm⟩ = .ok ⟨"", "le-staging"⟩ ∧
    (CreateCert cl h ⟨.ok ⟨"", "le-staging"⟩, pm⟩ ⟨fs, []⟩).1.status ≠ 400 ∧
    (calls (CreateCert cl h ⟨.ok ⟨"", "le-staging"⟩, pm⟩ ⟨fs, []⟩).2).head? =
      some (.GetCADir "https://acme-staging-v02.api.letsencrypt.org/directory"
        (cl.GetCADir "https://acme-staging-v02.api.letsencrypt.org/directory")) := by
  have hv : ValidateRequest ⟨.ok ⟨"", "le-staging"⟩, pm⟩ = .ok ⟨"", "le-staging"⟩ := by
    simp [ValidateRequest, CustomValidator.Validate, validatorStruct, CreateCertReq.fields]
  refine ⟨hv, ?_, ?_⟩
  · simp only [CreateCert, hv]
    split <;> simp [Response.status]
  · simp only [CreateCert, hv, true_or, if_true, createLEStagingCert_eq_issueCertWith,
      issueCertWith]
    repeat' split
    all_goals simp only [Sys.log, Sys.write, List.nil_append, List.cons_append] at *
    all_goals simp [calls]

/-- C4 (as stated, refuted): the certificate of `rawBytesClient` is the two bytes FF
FE, which are not valid UTF-8. `createLEStagingCert` returns nil with that resource
yielded by `GetCert`, and the following `GetCert` handler call answers 200, but the
`Cert` of the JSON body is U+FFFD twice (EF BF BD EF BF BD), not the certificate. -/
theorem issued_cert_round_trip_counterexample :
    (createLEStagingCert rawBytesClient okHost "example.com" ⟨[], []⟩).1 = none ∧
    yieldedCerts (calls (createLEStagingCert rawBytesClient okHost "example.com" ⟨[], []⟩).2) = [⟨[0xFF, 0xFE], [75, 69, 89], "issued"⟩] ∧
    (GetCert okHost (paramContext "example.com") (createLEStagingCert rawBytesClient okHost "example.com" ⟨[], []⟩).2).1.wire =
      .json 200 (.cert ⟨[0xEF, 0xBF, 0xBD, 0xEF, 0xBF, 0xBD], [75, 69, 89]⟩) ∧
    (GetCert okHost (paramContext "example.com") (createLEStagingCert rawBytesClient okHost "example.com" ⟨[], []⟩).2).1.wire ≠
      .json 200 (.cert ⟨[0xFF, 0xFE], [75, 69, 89]⟩) := by
  decide

/-- C4 (amended): for a non-empty domain `d`, when `createLEStagingCert d` or
`createZeroSSLCert d` returns nil, its `GetCert` call yielded exactly one resource
`res`, and a following `GetCert` handler call with path parameter domain = `d`
answers 200 and hands `c.JSON` the record whose `Cert` is `string(res.Certificate)`
and whose `Key` is `string(res.PrivateKey)`; in the JSON body each of the two is
that string with every byte that is not part of valid UTF-8 replaced by U+FFFD, and
so equals `res.Certificate`, `res.PrivateKey` byte for byte whenever these are valid
UTF-8. -/
theorem issued_cert_round_trip (cl : ACMEClient) (h : Host) (d : String) (fs : FS)
    (c : Context) (hd : d ≠ "") (hc : c.Param "domain" = d) :
    ∀ r, r = createLEStagingCert cl h d ⟨fs, []⟩ ∨ r = createZeroSSLCert cl h d ⟨fs, []⟩ →
      r.1 = none →
      ∃ res, yieldedCerts (calls r.2) = [res] ∧
        (GetCert h c r.2).1 = .json 200 (.cert ⟨res.Certificate, res.PrivateKey⟩) ∧
        (GetCert h c r.2).1.wire =
          .json 200 (.cert ⟨toValidUTF8 res.Certificate, toValidUTF8 res.PrivateKey⟩) ∧
        (utf8Valid res.Certificate = true → utf8Valid res.PrivateKey = true →
          (GetCert h c r.2).1.wire =
            .json 200 (.cert ⟨res.Certificate, res.PrivateKey⟩)) := by
  have key : ∀ url eab, (issueCertWith url eab cl h d ⟨fs, []⟩).1 = none →
      ∃ res, yieldedCerts (calls (issueCertWith url eab cl h d ⟨fs, []⟩).2) = [res] ∧
        (GetCert h c (issueCertWith url eab cl h d ⟨fs, []⟩).2).1 =
          .json 200 (.cert ⟨res.Certificate, res.PrivateKey⟩) := by
    intro url eab
    simp only [issueCertWith]
    repeat' split
    all_goals simp only [Sys.log, Sys.write, List.nil_append, List.cons_append] at *
    all_goals try simp
    rename_i hw1 _ _ _ _ _ _ _ res hres _ hw2 _ hw3
    have e2 := WriteFile_read_self _ _ _ _ hw2
    have e3 := WriteFile_read_self _ _ _ _ hw3
    have e4 := fun fs0 data => WriteFile_read_of_ne h fs0 (d ++ ".key") (d ++ ".cert") data
      (fileOf_cert_ne_key h d)
    simp [hres, hc, hd, e2, e3, e4, calls, yieldedCerts, GetCert, Sys.read, Sys.log]
  have wire : ∀ r : Option GoError × Sys,
      (∃ res, yieldedCerts (calls r.2) = [res] ∧
        (GetCert h c r.2).1 = .json 200 (.cert ⟨res.Certificate, res.PrivateKey⟩)) →
      ∃ res, yieldedCerts (calls r.2) = [res] ∧
        (GetCert h c r.2).1 = .json 200 (.cert ⟨res.Certificate, res.PrivateKey⟩) ∧
        (GetCert h c r.2).1.wire =
          .json 200 (.cert ⟨toValidUTF8 res.Certificate, toValidUTF8 res.PrivateKey⟩) ∧
        (utf8Valid res.Certificate = true → utf8Valid res.PrivateKey = true →
          (GetCert h c r.2).1.wire =
            .json 200 (.cert ⟨res.Certificate, res.PrivateKey⟩)) := by
    rintro r ⟨res, hy, hv⟩
    refine ⟨res, hy, hv, by rw [hv]; rfl, fun h1 h2 => ?_⟩
    rw [hv]
    simp only [Response.wire, JSONBody.wire, toValidUTF8_of_valid _ h1,
      toValidUTF8_of_valid _ h2]
  rintro r (rfl | rfl) hr
  · exact wire _ (key _ _ (by simpa [createLEStagingCert_eq_issueCertWith] using hr))
  · exact wire _ (key _ _ (by simpa [createZeroSSLCert_eq_issueCertWith] using hr))

/-- Issuing for example.com against a client that never fails, then fetching: the
four certificate bytes and the three key bytes that `GetCert` of the client returned
are valid UTF-8, and the JSON body carries them unchanged. -/
theorem issued_cert_round_trip_witness :
    (createLEStagingCert okClient okHost "example.com" ⟨[], []⟩).1 = none ∧
    yieldedCerts (calls (createLEStagingCert okClient okHost "example.com" ⟨[], []⟩).2) =
      [⟨[67, 69, 82, 84], [75, 69, 89], "issued"⟩] ∧
    (GetCert okHost (paramContext "example.com")
      (createLEStagingCert okClient okHost "example.com" ⟨[], []⟩).2).1.wire =
      .json 200 (.cert ⟨[67, 69, 82, 84], [75, 69, 89]⟩) := by
  obtain ⟨res, hyield, -, -, hwire⟩ := issued_cert_round_trip okClient okHost "example.com" []
    (paramContext "example.com") (by decide) rfl _ (Or.inl rfl) rfl
  have e : [(⟨[67, 69, 82, 84], [75, 69, 89], "issued"⟩ : Resource)] = [res] := hyield
  simp only [List.cons.injEq, and_true] at e
  subst e
  exact ⟨rfl, hyield, hwire (by decide) (by decide)⟩

/-- C5: in every run of `createLEStagingCert` and of `createZeroSSLCert`, a
`NotifyChallenge` call is never the first call, and the call right before it is the
write of `challenge.Key` to `path.Join("challenges", challenge.Token)`, which
returned no error; hence, in the file system as it is when `NotifyChallenge` is
called, a `GetTokenKey` handler call with path parameter token = `challenge.Token`
(non-empty) answers 200 with `ChallengeTokenRes` holding `challenge.Key`. -/
theorem token_served_before_notify (cl : ACMEClient) (h : Host) (d : String) (fs : FS) :
    ∀ r, r = createLEStagingCert cl h d ⟨fs, []⟩ ∨ r = createZeroSSLCert cl h d ⟨fs, []⟩ →
      (∀ l, r.2.trace.head? = some l → l.ev.op ≠ .NotifyChallenge) ∧
      List.Chain' (fun before cur => ∀ caDir acctKid pk ch out,
        cur.ev = .NotifyChallenge caDir acctKid pk ch out →
          before.ev = .WriteFile (h.pathJoin "challenges" ch.Token) ch.Key 0o777 none)
        r.2.trace ∧
      (∀ l ∈ r.2.trace, ∀ caDir acctKid pk ch out,
        l.ev = .NotifyChallenge caDir acctKid pk ch out →
          ∀ (c : Context) (tr : List Logged), c.Param "token" = ch.Token → ch.Token ≠ "" →
            (GetTokenKey h c ⟨l.pre, tr⟩).1 = .json 200 (.token ⟨ch.Key⟩)) := by
  rintro r (rfl | rfl)
  · rw [createLEStagingCert_eq_issueCertWith]
    exact ⟨issueCertWith_head_not_notify _ _ cl h d fs,
      issueCertWith_write_then_notify _ _ cl h d fs, issueCertWith_notify_served _ _ cl h d fs⟩
  · rw [createZeroSSLCert_eq_issueCertWith]
    exact ⟨issueCertWith_head_not_notify _ _ cl h d fs,
      issueCertWith_write_then_notify _ _ cl h d fs, issueCertWith_notify_served _ _ cl h d fs⟩

/-- In the run for example.com the token file holds the key when `NotifyChallenge`
is called, and `GetTokenKey` serves it. -/
theorem token_served_before_notify_witness :
    (GetTokenKey okHost (paramContext "tok") ⟨[("/srv/challenges/tok", [107, 101, 121])], []⟩).1 =
      .json 200 (.token ⟨[107, 101, 121]⟩) :=
  (token_served_before_notify okClient okHost "example.com" [] _ (Or.inl rfl)).2.2
    ⟨[("/srv/challenges/tok", [107, 101, 121])],
      .NotifyChallenge ⟨"directory"⟩ "kid-1" ⟨"account-key"⟩ ⟨"tok", [107, 101, 121], "http-01"⟩
        (.ok ⟨"processing"⟩)⟩
    (by decide) _ _ _ _ _ rfl (paramContext "tok") [] rfl (by decide)

/-- C6: the `GetCert` handler answers 200 exactly when the domain parameter is not
empty and both "<d>.cert" and "<d>.key" can be read, and the body then holds both
contents; for the empty domain it answers 400 "missing domain query param" and
reads no file (the state, trace included, is as before); when the domain is not
empty and one of the two files cannot be read it answers with `c.InternalError`,
which is no JSON body at all. -/
theorem GetCert_all_or_nothing (h : Host) (c : Context) (s : Sys) :
    ((GetCert h c s).1.status = 200 ↔
      c.Param "domain" ≠ "" ∧
      (∃ cert, ReadFile h s.fs (c.Param "domain" ++ ".cert") = .ok cert) ∧
      (∃ key, ReadFile h s.fs (c.Param "domain" ++ ".key") = .ok key)) ∧
    (∀ code body, (GetCert h c s).1 = .json code body →
      ∃ cert key, code = 200 ∧ body = .cert ⟨cert, key⟩ ∧
        ReadFile h s.fs (c.Param "domain" ++ ".cert") = .ok cert ∧
        ReadFile h s.fs (c.Param "domain" ++ ".key") = .ok key) ∧
    (c.Param "domain" = "" →
      GetCert h c s = (.string 400 "missing domain query param", s)) ∧
    (c.Param "domain" ≠ "" →
      ((∃ err, ReadFile h s.fs (c.Param "domain" ++ ".cert") = .error err) ∨
        (∃ err, ReadFile h s.fs (c.Param "domain" ++ ".key") = .error err)) →
      ∃ err msg, (GetCert h c s).1 = .internalError err msg) := by
  by_cases hd : c.Param "domain" = ""
  · simp [GetCert, hd, Response.status]
  · cases hc : ReadFile h s.fs (c.Param "domain" ++ ".cert") <;>
      cases hk : ReadFile h s.fs (c.Param "domain" ++ ".key") <;>
      simp [GetCert, hd, Response.status, Sys.read, Sys.log, hc, hk]

/-- With only the certificate file on disk the handler answers with
`c.InternalError`, and with both files it answers 200. -/
theorem GetCert_all_or_nothing_witness :
    (∃ err msg, (GetCert okHost (paramContext "example.com")
      ⟨[("/srv/example.com.cert", [1])], []⟩).1 = .internalError err msg) ∧
    (GetCert okHost (paramContext "example.com")
      ⟨[("/srv/example.com.cert", [1]), ("/srv/example.com.key", [2])], []⟩).1.status = 200 :=
  ⟨(GetCert_all_or_nothing okHost (paramContext "example.com")
      ⟨[("/srv/example.com.cert", [1])], []⟩).2.2.2 (by decide) (Or.inr ⟨_, rfl⟩),
    (GetCert_all_or_nothing okHost (paramContext "example.com")
      ⟨[("/srv/example.com.cert", [1]), ("/srv/example.com.key", [2])], []⟩).1.mpr
      ⟨by decide, ⟨_, rfl⟩, ⟨_, rfl⟩⟩⟩

/-- C7: there is one routing configuration, with exactly one rule, holding exactly
one match, holding exactly one destination, whose URL is "http://localhost:8080",
that the `GetConfig` handler answers with, status 200, for every non-empty domain
and every state of the file system, which it leaves as it is; for the empty domain
it answers 400 "missing domain query param". -/
theorem GetConfig_constant :
    ∃ cfg : Config,
      (∃ rule mt dest, cfg.Rules = [rule] ∧ rule.Matches = [mt] ∧
        mt.Destinations = [dest] ∧ dest.URL = "http://localhost:8080") ∧
      ∀ (c : Context) (s : Sys),
        (c.Param "domain" ≠ "" → GetConfig c s = (.json 200 (.config cfg), s)) ∧
        (c.Param "domain" = "" →
          GetConfig c s = (.string 400 "missing domain query param", s)) := by
  refine ⟨⟨[⟨[⟨[⟨"http://localhost:8080"⟩]⟩]⟩]⟩, ⟨_, _, _, rfl, rfl, rfl, rfl⟩, ?_⟩
  intro c s
  constructor <;> intro hd <;> simp [GetConfig, hd]

/-- C8: for a request that passes `ValidateRequest` and whose provider is none of
"le-staging", "" and "zerossl", the handler answers 200 "created cert for domain!"
and leaves the state as it was: no call is recorded and no file is written. -/
theorem CreateCert_unknown_provider (cl : ACMEClient) (h : Host) (c : Context) (s : Sys)
    (req : CreateCertReq) (hv : ValidateRequest c = .ok req)
    (h1 : req.Provider ≠ "le-staging") (h2 : req.Provider ≠ "")
    (h3 : req.Provider ≠ "zerossl") :
    CreateCert cl h c s = (.string 200 "created cert for domain!", s) := by
  simp [CreateCert, hv, h1, h2, h3]

/-- A request with provider "letsencrypt" is answered 200 with no call made. -/
theorem CreateCert_unknown_provider_witness :
    ValidateRequest (bodyContext ⟨"example.com", "letsencrypt"⟩) =
      .ok ⟨"example.com", "letsencrypt"⟩ ∧
    CreateCert okClient okHost (bodyContext ⟨"example.com", "letsencrypt"⟩) ⟨[], []⟩ =
      (.string 200 "created cert for domain!", ⟨[], []⟩) :=
  ⟨rfl, CreateCert_unknown_provider okClient okHost (bodyContext ⟨"example.com", "letsencrypt"⟩)
    ⟨[], []⟩ ⟨"example.com", "letsencrypt"⟩ rfl (by decide) (by decide) (by decide)⟩

/-- C9 (as stated, refuted): domain "./challenges/x", challenge token "x.cert",
`NotifyChallenge` failing (step 6, counting from 0). The token path
"challenges/x.cert" differs as a string from "./challenges/x.cert" and from
"./challenges/x.key", the routine fails before the `GetCert` call, and yet
"./challenges/x.cert", which held the byte 1, holds the challenge key afterwards:
the two spellings name one file. -/
theorem failure_keeps_files_counterexample :
    okHost.pathJoin "challenges" "x.cert" ≠ "./challenges/x" ++ ".cert" ∧
    okHost.pathJoin "challenges" "x.cert" ≠ "./challenges/x" ++ ".key" ∧
    yieldedChallenges (calls (createLEStagingCert aliasClient okHost "./challenges/x" ⟨[("/srv/challenges/x.cert", [1]), ("/srv/challenges/x.key", [2])], []⟩).2) = [⟨"x.cert", [107, 101, 121], "http-01"⟩] ∧
    firstFailure (calls (createLEStagingCert aliasClient okHost "./challenges/x" ⟨[("/srv/challenges/x.cert", [1]), ("/srv/challenges/x.key", [2])], []⟩).2) = some (6, .ext "unauthorized") ∧
    (createLEStagingCert aliasClient okHost "./challenges/x" ⟨[("/srv/challenges/x.cert", [1]), ("/srv/challenges/x.key", [2])], []⟩).1 = some (.wrapped "error in NotifyChallenge: " (.ext "unauthorized")) ∧
    ReadFile okHost [("/srv/challenges/x.cert", [1]), ("/srv/challenges/x.key", [2])] ("./challenges/x" ++ ".cert") = .ok [1] ∧
    ReadFile okHost (createLEStagingCert aliasClient okHost "./challenges/x" ⟨[("/srv/challenges/x.cert", [1]), ("/srv/challenges/x.key", [2])], []⟩).2.fs ("./challenges/x" ++ ".cert") = .ok [107, 101, 121] := by
  decide

/-- C9 (amended): when `createLEStagingCert d` fails at a step up to and including
the ACME `GetCert` call (one of the first ten steps), with `t` the token of the
challenge it obtained and `path.Join("challenges", t)` naming another file than
"<d>.cert" and than "<d>.key" (the files differ, not only the spellings of the
paths):
the routine returns an error, "<d>.cert" and "<d>.key" read exactly as before the
call, and so does every path that names another file than
`path.Join("challenges", t)`. -/
theorem failure_before_cert_write_keeps_files (cl : ACMEClient) (h : Host) (d : String)
    (fs : FS) (t : String)
    (hch : ∀ ch ∈ yieldedChallenges (calls (createLEStagingCert cl h d ⟨fs, []⟩).2),
      ch.Token = t)
    (hcert : h.fileOf (h.pathJoin "challenges" t) ≠ h.fileOf (d ++ ".cert"))
    (hkey : h.fileOf (h.pathJoin "challenges" t) ≠ h.fileOf (d ++ ".key"))
    (k : Nat) (e : GoError)
    (hfail : firstFailure (calls (createLEStagingCert cl h d ⟨fs, []⟩).2) = some (k, e))
    (hk : k < 10) :
    (createLEStagingCert cl h d ⟨fs, []⟩).1 ≠ none ∧
    ReadFile h (createLEStagingCert cl h d ⟨fs, []⟩).2.fs (d ++ ".cert") =
      ReadFile h fs (d ++ ".cert") ∧
    ReadFile h (createLEStagingCert cl h d ⟨fs, []⟩).2.fs (d ++ ".key") =
      ReadFile h fs (d ++ ".key") ∧
    ∀ p, h.fileOf p ≠ h.fileOf (h.pathJoin "challenges" t) →
      ReadFile h (createLEStagingCert cl h d ⟨fs, []⟩).2.fs p = ReadFile h fs p := by
  have frame : ∀ p, h.fileOf p ≠ h.fileOf (h.pathJoin "challenges" t) →
      ReadFile h (createLEStagingCert cl h d ⟨fs, []⟩).2.fs p = ReadFile h fs p ∧
      (createLEStagingCert cl h d ⟨fs, []⟩).1 ≠ none := by
    intro p hp
    revert hch hfail
    simp only [createLEStagingCert_eq_issueCertWith, issueCertWith]
    repeat' split
    all_goals simp only [Sys.log, Sys.write, List.nil_append, List.cons_append] at *
    all_goals simp [*, calls, firstFailure, Event.err, errOf, yieldedChallenges]
    all_goals
      intro ht hk0 _
      first
        | omega
        | (subst ht; exact WriteFile_read_of_ne h fs _ p _ hp)
  exact ⟨(frame _ hcert.symm).2, (frame _ hcert.symm).1, (frame _ hkey.symm).1,
    fun p hp => (frame p hp).1⟩

/-- With a certificate and key for example.com on disk and a client whose `GetCert`
fails (step 9, counting from 0), both files read as before. -/
theorem failure_before_cert_write_keeps_files_witness :
    firstFailure (calls (createLEStagingCert noCertClient okHost "example.com"
      ⟨[("/srv/example.com.cert", [1]), ("/srv/example.com.key", [2])], []⟩).2) =
      some (9, .ext "badNonce") ∧
    (createLEStagingCert noCertClient okHost "example.com"
      ⟨[("/srv/example.com.cert", [1]), ("/srv/example.com.key", [2])], []⟩).1 ≠ none ∧
    ReadFile okHost (createLEStagingCert noCertClient okHost "example.com"
      ⟨[("/srv/example.com.cert", [1]), ("/srv/example.com.key", [2])], []⟩).2.fs
        ("example.com" ++ ".cert") = .ok [1] ∧
    ReadFile okHost (createLEStagingCert noCertClient okHost "example.com"
      ⟨[("/srv/example.com.cert", [1]), ("/srv/example.com.key", [2])], []⟩).2.fs
        ("example.com" ++ ".key") = .ok [2] :=
  have w := failure_before_cert_write_keeps_files noCertClient okHost "example.com"
    [("/srv/example.com.cert", [1]), ("/srv/example.com.key", [2])] "tok" (by decide) (by decide)
    (by decide) 9 (.ext "badNonce") rfl (by decide)
  ⟨rfl, w.1, w.2.1, w.2.2.1⟩

/-- C10: `createLEStagingCert` and `createZeroSSLCert` are the one procedure
`issueCertWith`, the first with the LE staging directory URL and no account
options, the second with the ZeroSSL URL and the options built from the
environment variables ZEROSSL_KID and ZEROSSL_HMAC; and whenever the client answers
`GetCADir` and `CreateAccount` alike for the two choices, both routines return the
same error, leave the same file system and make the same calls with the same
arguments and outcomes, apart from those two arguments. -/
theorem createZeroSSLCert_same_procedure (cl : ACMEClient) (h : Host) (d : String)
    (s : Sys) :
    createLEStagingCert cl h d s =
      issueCertWith "https://acme-staging-v02.api.letsencrypt.org/directory" none cl h d s ∧
    createZeroSSLCert cl h d s =
      issueCertWith "https://acme.zerossl.com/v2/DV90/directory"
        (some ⟨h.Getenv "ZEROSSL_KID", h.Getenv "ZEROSSL_HMAC"⟩) cl h d s ∧
    (cl.GetCADir "https://acme.zerossl.com/v2/DV90/directory" =
        cl.GetCADir "https://acme-staging-v02.api.letsencrypt.org/directory" →
      (∀ caDir, cl.CreateAccount "deftesting@icloud.com" caDir
          (some ⟨h.Getenv "ZEROSSL_KID", h.Getenv "ZEROSSL_HMAC"⟩) =
        cl.CreateAccount "deftesting@icloud.com" caDir none) →
      (createZeroSSLCert cl h d s).1 = (createLEStagingCert cl h d s).1 ∧
      (createZeroSSLCert cl h d s).2.fs = (createLEStagingCert cl h d s).2.fs ∧
      (calls (createZeroSSLCert cl h d s).2).map Event.eraseProvider =
        (calls (createLEStagingCert cl h d s).2).map Event.eraseProvider) := by
  refine ⟨rfl, rfl, fun hdir hacct => ?_⟩
  rw [createLEStagingCert_eq_issueCertWith, createZeroSSLCert_eq_issueCertWith]
  exact issueCertWith_congr _ _ _ _ cl h d s hdir hacct

/-- Against a client that answers every call alike, the two routines return the same
error, leave the same files and make the same calls up to the two arguments. -/
theorem createZeroSSLCert_same_procedure_witness :
    (createZeroSSLCert okClient okHost "example.com" ⟨[], []⟩).1 =
      (createLEStagingCert okClient okHost "example.com" ⟨[], []⟩).1 ∧
    (createZeroSSLCert okClient okHost "example.com" ⟨[], []⟩).2.fs =
      (createLEStagingCert okClient okHost "example.com" ⟨[], []⟩).2.fs ∧
    (calls (createZeroSSLCert okClient okHost "example.com" ⟨[], []⟩).2).map
        Event.eraseProvider =
      (calls (createLEStagingCert okClient okHost "example.com" ⟨[], []⟩).2).map
        Event.eraseProvider :=
  (createZeroSSLCert_same_procedure okClient okHost "example.com" ⟨[], []⟩).2.2 rfl
    (fun _ => rfl)

end GildraControlPlane
